import Mathlib

/-!
Verification of the attestation issuance pipeline (validator, canonical byte
encoding, signer, orchestrator) of the audius discovery provider, together
with the track query layer in `src/queries/get_tracks.py`.

The attestation core itself is only witnessed by its test file in this
snapshot, so its components are modelled from the specification; each such
definition carries a doc comment beginning with `Modelled from the spec:`.
The track query layer is translated directly from `get_tracks.py`.
-/

namespace Audius

/-- ASCII byte sequence of a string (one byte per character code). -/
def asciiBytes (s : String) : List Nat :=
  s.data.map Char.toNat

/-- Decimal ASCII encoding of a natural number, most significant digit
first, no leading zeros. -/
def encNat (n : Nat) : List Nat :=
  if n < 10 then [48 + n]
  else encNat (n / 10) ++ [48 + n % 10]
termination_by n
decreasing_by exact Nat.div_lt_self (by omega) (by omega)

/-- Fixed-width big-endian byte encoding of a natural number. -/
def beBytes : Nat → Nat → List Nat
  | 0, _ => []
  | w + 1, n => beBytes w (n / 256) ++ [n % 256]

/-- Big-endian decoding of a byte sequence. -/
def fromBe (l : List Nat) : Nat :=
  l.foldl (fun acc b => acc * 256 + b) 0

/-- ASCII code of a lowercase hexadecimal digit. -/
def hexChar (d : Nat) : Char :=
  Char.ofNat (if d < 10 then 48 + d else 87 + d)

/-- Value of a lowercase hexadecimal digit character. -/
def hexCharVal (c : Char) : Nat :=
  if 97 ≤ c.toNat then c.toNat - 87 else c.toNat - 48

/-- Recognizer for lowercase hexadecimal digit characters. -/
def isHexChar (c : Char) : Bool :=
  (48 ≤ c.toNat && c.toNat ≤ 57) || (97 ≤ c.toNat && c.toNat ≤ 102)

/-- Lowercase hexadecimal character rendering of a byte sequence, two hex
digits per byte. -/
def hexOfBytes (l : List Nat) : List Char :=
  l.foldr (fun b acc => hexChar (b / 16) :: hexChar (b % 16) :: acc) []

/-- Parses pairs of hexadecimal characters back into bytes. -/
def bytesOfHex : List Char → List Nat
  | c1 :: c2 :: rest => (hexCharVal c1 * 16 + hexCharVal c2) :: bytesOfHex rest
  | _ => []

/-- Attestation value object: reward amount plus the oracle wallet, the user
wallet, the challenge type identifier and the challenge specifier. It exists
only transiently during one issuance call. -/
structure Attestation where
  amount : Nat
  oracle_address : String
  user_address : String
  challenge_id : String
  challenge_specifier : String
deriving DecidableEq, Repr

/-- Terminator byte of the canonical encoding, ASCII colon. It only ever
ends a run of ASCII decimal digits (an amount or a field length), never
borders field content, so it cannot be confused with field content. -/
def SEP : Nat := 58

/-- Length-prefixed ASCII encoding of one string field: the decimal length
of the field, the digit terminator, then the field bytes. Because the
content is delimited by its announced length rather than by any in-band
marker, the encoding is self-delimiting for arbitrary field content. -/
def fieldBytes (s : String) : List Nat :=
  encNat s.data.length ++ SEP :: asciiBytes s

/-- Modelled from the spec: `Attestation.get_attestation_bytes`, the
canonical byte encoding produced by the AttestationBuilder (the builder
module is missing from this snapshot). It concatenates, in the fixed field
order amount, oracle_address, user_address, challenge_id,
challenge_specifier, the terminated ASCII decimal encoding of the amount
followed by the length-prefixed ASCII encoding of each string field, so the
whole encoding is total and injective on every five-tuple. -/
def Attestation.get_attestation_bytes (a : Attestation) : List Nat :=
  encNat a.amount ++ SEP ::
    (fieldBytes a.oracle_address ++
      (fieldBytes a.user_address ++
        (fieldBytes a.challenge_id ++ fieldBytes a.challenge_specifier)))

/-- Splits a byte sequence at the first terminator byte, returning the
content before it and the remainder after it. -/
def splitAtSep : List Nat → List Nat × List Nat
  | [] => ([], [])
  | b :: bs =>
    if b = SEP then ([], bs)
    else
      let p := splitAtSep bs
      (b :: p.1, p.2)

/-- Decimal value of a run of ASCII digit bytes. -/
def decodeNat (l : List Nat) : Nat :=
  l.foldl (fun acc d => acc * 10 + (d - 48)) 0

/-- Reads one length-prefixed field off the front of a byte sequence,
returning the field content and the remainder. -/
def readField (l : List Nat) : List Nat × List Nat :=
  ((splitAtSep l).2.take (decodeNat (splitAtSep l).1),
    (splitAtSep l).2.drop (decodeNat (splitAtSep l).1))

/-- Parses the canonical attestation byte sequence back into its five
encoded fields, in the fixed field order: the terminated amount digits,
then the four length-prefixed string fields. -/
def parseAttestationBytes (l : List Nat) :
    List Nat × List Nat × List Nat × List Nat × List Nat :=
  let p0 := splitAtSep l
  let f1 := readField p0.2
  let f2 := readField f1.2
  let f3 := readField f2.2
  let f4 := readField f3.2
  (p0.1, f1.1, f2.1, f3.1, f4.1)

/-- Modelled from the spec: the fixed, versioned 32-byte digest of the
message bytes (keccak-256 in the implementation, which is external crypto).
Modelled as a deterministic 32-byte digest of the whole message. -/
def keccak256 (msg : List Nat) : List Nat :=
  (List.range 32).map (fun i => msg.foldl (fun acc b => (acc * 31 + b) % 256) i)

/-- Modelled from the spec: the process-wide DelegateKeyMaterial, a private
signing key held immutable for the process lifetime. -/
structure DelegateKeyMaterial where
  private_key : Nat
deriving DecidableEq, Repr

/-- Modelled from the spec: derivation of the delegate public wallet address
from the signing key (elliptic-curve public-key derivation plus address
hashing are external crypto). Modelled as a fixed 20-byte rendering of the
key. -/
def deriveAddress (pk : Nat) : String :=
  ⟨'0' :: 'x' :: hexOfBytes (beBytes 20 pk)⟩

/-- Public wallet address derived from the delegate key material. -/
def ownerWallet (k : DelegateKeyMaterial) : String :=
  deriveAddress k.private_key

/-- Modelled from the spec: the 65 raw signature bytes, two 32-byte scalars
plus one recovery byte, of a recoverable signature over a 32-byte digest
(secp256k1 signing is external crypto). Modelled with the first scalar
carrying the key-derived recovery material and the second binding the
digest. -/
def signBytes (k : DelegateKeyMaterial) (digest : List Nat) : List Nat :=
  beBytes 32 k.private_key ++ digest ++ [27]

/-- Modelled from the spec: signature recovery, returning the signer wallet
address from a digest and the 65 raw signature bytes when they match. -/
def ecRecover (digest sig : List Nat) : Option String :=
  if sig.length = 65 ∧ (sig.drop 32).take 32 = digest then
    some (deriveAddress (fromBe (sig.take 32)))
  else none

/-- Hex string rendering of a byte sequence, with the 0x prefix. -/
def toHexString (l : List Nat) : String :=
  ⟨'0' :: 'x' :: hexOfBytes l⟩

/-- Parses a 0x-prefixed hex string back into its byte sequence. -/
def fromHexString (s : String) : List Nat :=
  bytesOfHex (s.data.drop 2)

/-- Recovery of the signer address from a digest and a hex-encoded
signature, as a verifier would run it. -/
def recoverSigner (digest : List Nat) (sig : String) : Option String :=
  ecRecover digest (fromHexString sig)

/-- Progress record of one user on one challenge instance, as returned by
the store lookup: completion flag, disbursement flag and the reward amount
of the underlying challenge. -/
structure UserChallenge where
  is_complete : Bool
  disbursed : Bool
  amount : Nat
deriving DecidableEq, Repr

/-- Modelled from the spec: the read-only ChallengeRecordStore snapshot,
with the keyed `lookup` of the store query interface plus the wallet
address of a user, which the orchestrator needs to build the attestation. -/
structure ChallengeStore where
  lookup : Nat → String → String → Option UserChallenge
  user_wallet : Nat → String

/-- Modelled from the spec: the read-only OracleRegistry snapshot, the set
of wallet addresses currently authorized to request attestations. -/
structure OracleRegistry where
  oracle_addresses : List String
deriving DecidableEq, Repr

/-- Rejection kinds of the validator, one per failed rule. -/
inductive AttestationErrorKind where
  | NOT_FOUND
  | INCOMPLETE
  | ALREADY_DISBURSED
  | INVALID_ORACLE
deriving DecidableEq, Repr

/-- Typed issuance error: a rejection kind plus a human-readable message. -/
structure AttestationError where
  kind : AttestationErrorKind
  message : String
deriving DecidableEq, Repr

/-- Human-readable message attached to each rejection kind. -/
def errorMessage : AttestationErrorKind → String
  | .NOT_FOUND => "Could not find a matching user challenge"
  | .INCOMPLETE => "Challenge is not complete"
  | .ALREADY_DISBURSED => "Challenge has already been disbursed"
  | .INVALID_ORACLE => "Oracle address is not a registered oracle"

/-- Modelled from the spec: the AttestationValidator, a linear state
machine running LOOKUP, COMPLETE, NOT_DISBURSED, ORACLE in that order; the
first failing check terminates with its rejection kind, and success returns
the validated reward amount. -/
def validate (db : ChallengeStore) (reg : OracleRegistry) (user_id : Nat)
    (challenge_id oracle_address specifier : String) :
    Except AttestationErrorKind Nat :=
  match db.lookup user_id challenge_id specifier with
  | none => .error .NOT_FOUND
  | some uc =>
    if !uc.is_complete then .error .INCOMPLETE
    else if uc.disbursed then .error .ALREADY_DISBURSED
    else if !reg.oracle_addresses.contains oracle_address then .error .INVALID_ORACLE
    else .ok uc.amount

/-- Observable effects of one issuance call: a signing operation over a
digest, or a write to shared state. -/
inductive Effect where
  | signed (digest : List Nat)
  | wrote
deriving DecidableEq, Repr

/-- Modelled from the spec: the Orchestrator `get_attestation`, composing
Validator, Builder and Signer, instrumented with the list of effects the
call performs. The core never writes to the store or the registry, so no
write effect occurs on any path; signing happens exactly once, after
validation succeeds. -/
def get_attestation_traced (db : ChallengeStore) (reg : OracleRegistry)
    (k : DelegateKeyMaterial) (user_id : Nat)
    (challenge_id oracle_address specifier : String) :
    Except AttestationError (String × String) × List Effect :=
  match validate db reg user_id challenge_id oracle_address specifier with
  | .error kind => (.error ⟨kind, errorMessage kind⟩, [])
  | .ok amount =>
    let att : Attestation :=
      ⟨amount, oracle_address, db.user_wallet user_id, challenge_id, specifier⟩
    let digest := keccak256 att.get_attestation_bytes
    (.ok (ownerWallet k, toHexString (signBytes k digest)), [.signed digest])

/-- Modelled from the spec: the issuance operation, returning the delegate
owner wallet address paired with the hex signature, or a typed error. -/
def get_attestation (db : ChallengeStore) (reg : OracleRegistry)
    (k : DelegateKeyMaterial) (user_id : Nat)
    (challenge_id oracle_address specifier : String) :
    Except AttestationError (String × String) :=
  (get_attestation_traced db reg k user_id challenge_id oracle_address specifier).1

/-- Recognizer for 0x-prefixed lowercase hex strings of 40 hex digits. -/
def isAddressString (s : String) : Bool :=
  s.length == 42 && s.data.take 2 == ['0', 'x'] && (s.data.drop 2).all isHexChar

/-- Recognizer for 0x-prefixed lowercase hex strings of 130 hex digits,
covering two 32-byte scalars plus one recovery byte. -/
def isSignatureString (s : String) : Bool :=
  s.length == 132 && s.data.take 2 == ['0', 'x'] && (s.data.drop 2).all isHexChar

/-- Track row, with the columns `_get_tracks` touches. The `release_date`
field holds the value of the SQL `to_date_safe` parse of the raw column,
`none` when it does not parse. -/
structure Track where
  track_id : Nat
  owner_id : Option Nat
  is_current : Bool
  is_unlisted : Bool
  is_delete : Bool
  stem_of : Option Nat
  blocknumber : Nat
  release_date : Option Nat
  created_at : Nat
deriving DecidableEq, Repr

/-- TrackRoute row: a slug attached to a track. -/
structure TrackRoute where
  track_id : Nat
  slug : String
deriving DecidableEq, Repr

/-- AggregatePlays row: play count of one track. -/
structure AggregatePlays where
  play_item_id : Nat
  count : Nat
deriving DecidableEq, Repr

/-- User row, with the columns the handle lookup touches. -/
structure User where
  user_id : Nat
  handle_lc : String
deriving DecidableEq, Repr

/-- Snapshot of the relational store consulted by the track queries. -/
structure Database where
  tracks : List Track
  track_routes : List TrackRoute
  aggregate_plays : List AggregatePlays
  users : List User
deriving DecidableEq, Repr

/-- Request args mapping. A field holds `none` when its key is absent from
the mapping. The `user_id` value is itself optional because the handle
branch stores the possibly-empty lookup result under the key. The `limit`
and `offset` fields are the pagination variables that `get_tracks` always
sets before querying. -/
structure Args where
  slug : Option String
  user_id : Option (Option Nat)
  id : Option (List Nat)
  handle : Option String
  filter_deleted : Option Bool
  min_block_number : Option Nat
  sort : Option String
  limit : Nat
  offset : Nat
deriving DecidableEq, Repr

/-- Insertion into a list sorted by the boolean relation `le`. -/
def insertBy {α : Type} (le : α → α → Bool) (a : α) : List α → List α
  | [] => [a]
  | b :: bs => if le a b then a :: b :: bs else b :: insertBy le a bs

/-- Insertion sort by the boolean relation `le`; used to model SQL
`order_by`, whose reordering never changes row membership. -/
def insertionSortBy {α : Type} (le : α → α → Bool) : List α → List α
  | [] => []
  | a :: as => insertBy le a (insertionSortBy le as)

/-- Initial query of `_get_tracks`: current tracks that are not stems. -/
def baseQuery (db : Database) : List Track :=
  db.tracks.filter (fun t => t.is_current && t.stem_of == none)

/-- Slug branch: join with TrackRoute and keep tracks with a route carrying
the requested slug (modelled as a semijoin). -/
def slugStage (db : Database) (args : Args) (q : List Track) : List Track :=
  match args.slug with
  | none => q
  | some s =>
    q.filter (fun t => db.track_routes.any (fun r => r.track_id == t.track_id && r.slug == s))

/-- Unlisted filter: only return unlisted tracks when both the slug and the
user_id keys are present. -/
def unlistedStage (args : Args) (q : List Track) : List Track :=
  if args.slug.isNone || args.user_id.isNone then
    q.filter (fun t => !t.is_unlisted)
  else q

/-- Track id list filter. -/
def idStage (args : Args) (q : List Track) : List Track :=
  match args.id with
  | none => q
  | some ids => q.filter (fun t => ids.contains t.track_id)

/-- Creator filter: keep tracks whose owner matches the value stored under
the user_id key, which may itself be empty. -/
def userStage (args : Args) (q : List Track) : List Track :=
  match args.user_id with
  | none => q
  | some v => q.filter (fun t => t.owner_id == v)

/-- Deleted filter, applied only when the key is present with a true value. -/
def deletedStage (args : Args) (q : List Track) : List Track :=
  match args.filter_deleted with
  | none => q
  | some fd => if fd then q.filter (fun t => !t.is_delete) else q

/-- Minimum block number filter. -/
def blockStage (args : Args) (q : List Track) : List Track :=
  match args.min_block_number with
  | none => q
  | some m => q.filter (fun t => m ≤ t.blocknumber)

/-- Sort key of the date ordering: parsed release date with creation date
as fallback. -/
def dateKey (t : Track) : Nat :=
  t.release_date.getD t.created_at

/-- Date ordering, descending, with track id descending as tiebreak. -/
def dateLe (a b : Track) : Bool :=
  decide (dateKey b < dateKey a) || (dateKey a == dateKey b && decide (b.track_id ≤ a.track_id))

/-- Play count of a track in the AggregatePlays snapshot. -/
def playCount (db : Database) (t : Track) : Nat :=
  ((db.aggregate_plays.find? (fun p => p.play_item_id == t.track_id)).map AggregatePlays.count).getD 0

/-- Modelled from the spec: `parse_sort_param`, a query ordering helper of
the external query_helpers module, absent from this snapshot. It only
reorders the rows; modelled as ordering by track id. -/
def parse_sort_param_model (q : List Track) : List Track :=
  insertionSortBy (fun a b => decide (a.track_id ≤ b.track_id)) q

/-- Sort branch of `_get_tracks`: date ordering, play-count ordering (an
inner join with AggregatePlays, so tracks without a plays row drop out), or
the whitelist ordering helper. -/
def sortStage (db : Database) (args : Args) (q : List Track) : List Track :=
  match args.sort with
  | none => q
  | some s =>
    if s = "date" then insertionSortBy dateLe q
    else if s = "plays" then
      insertionSortBy (fun a b => decide (playCount db b ≤ playCount db a))
        (q.filter (fun t => db.aggregate_plays.any (fun p => p.play_item_id == t.track_id)))
    else parse_sort_param_model q

/-- Modelled from the spec: `add_query_pagination` of the external
query_helpers module, absent from this snapshot; standard offset/limit
pagination. -/
def paginateStage (args : Args) (q : List Track) : List Track :=
  (q.drop args.offset).take args.limit

/-- Translation of `_get_tracks`: the filter pipeline in source order, then
sorting, then pagination. -/
def _get_tracks (db : Database) (args : Args) : List Track :=
  paginateStage args
    (sortStage db args
      (blockStage args
        (deletedStage args
          (userStage args
            (idStage args
              (unlistedStage args
                (slugStage db args
                  (baseQuery db))))))))

/-- ASCII lower-casing of a character. -/
def lowerChar (c : Char) : Char :=
  if 65 ≤ c.toNat ∧ c.toNat ≤ 90 then Char.ofNat (c.toNat + 32) else c

/-- ASCII lower-casing of a string, modelling the lower call applied to the
requested handle. -/
def lowerString (s : String) : String :=
  ⟨s.data.map lowerChar⟩

/-- Lookup of a user id by handle, as the handle branch of `get_tracks`
runs it: case-insensitive match, first row or none. -/
def lookupUserIdByHandle (db : Database) (h : String) : Option Nat :=
  (db.users.find? (fun u => u.handle_lc == lowerString h)).map User.user_id

/-- Handle branch of `get_tracks`: when the handle key is present, store
the lookup result, possibly empty, under the user_id key. -/
def argsAfterHandle (db : Database) (args : Args) : Args :=
  match args.handle with
  | none => args
  | some h => { args with user_id := some (lookupUserIdByHandle db h) }

/-- Shared cache guard of `get_tracks`: only id-based queries without
min_block_number, sort or user_id may use the shared cache. -/
def can_use_shared_cache (args : Args) : Bool :=
  args.id.isSome && args.min_block_number.isNone && args.sort.isNone && args.user_id.isNone

/-- Modelled from the spec: `get_unpopulated_tracks`, the shared
unpopulated-tracks cache fetch by id, absent from this snapshot; fetches
current tracks by id and optionally drops deleted ones. -/
def get_unpopulated_tracks (db : Database) (ids : List Nat) (fd : Bool) : List Track :=
  (db.tracks.filter (fun t => t.is_current && ids.contains t.track_id)).filter
    (fun t => !fd || !t.is_delete)

/-- Translation of the `get_tracks_and_ids` inner function of `get_tracks`:
run the handle branch, then either the shared cache fetch or the full
`_get_tracks` query, returning the rows and their ids. -/
def get_tracks_and_ids (db : Database) (args : Args) : List Track × List Nat :=
  let args2 := argsAfterHandle db args
  if can_use_shared_cache args2 then
    let tracks := get_unpopulated_tracks db (args2.id.getD []) (args2.filter_deleted.getD false)
    (tracks, tracks.map Track.track_id)
  else
    let tracks := _get_tracks db args2
    (tracks, tracks.map Track.track_id)

/-- Translation of `get_tracks`: the returned track rows. Metadata
population and user bundling are external collaborators that decorate rows
without changing which rows are returned. -/
def get_tracks (db : Database) (args : Args) : List Track :=
  (get_tracks_and_ids db args).1

/-- Kind of the first failing check of the ordered rule table, following
the spec: a missing record dominates, then incompleteness, then prior
disbursement, then the oracle check. -/
def firstFailingKind (db : ChallengeStore) (_reg : OracleRegistry) (user_id : Nat)
    (challenge_id _oracle_address specifier : String) : AttestationErrorKind :=
  match db.lookup user_id challenge_id specifier with
  | none => .NOT_FOUND
  | some uc =>
    if !uc.is_complete then .INCOMPLETE
    else if uc.disbursed then .ALREADY_DISBURSED
    else .INVALID_ORACLE

/-- Oracle wallet used by the test fixtures. -/
def sampleOracle : String := "0x32a10e91820fd10366AC363eD0DEa40B2e598D22"

/-- User wallet used by the test fixtures. -/
def sampleUserWallet : String := "0x38C68fF3926bf4E68289672F75ee1543117dD9B3"

/-- Delegate key material fixture. -/
def sampleKey : DelegateKeyMaterial := ⟨12345⟩

/-- Oracle registry fixture with a single registered oracle. -/
def sampleReg : OracleRegistry := ⟨[sampleOracle]⟩

/-- Challenge store fixture mirroring the scenarios of the test file: one
disbursed challenge, one complete and undisbursed challenge, one incomplete
challenge, all for user 1 and specifier 1. -/
def sampleStore : ChallengeStore where
  lookup := fun u c s =>
    if u = 1 ∧ s = "1" then
      if c = "boolean_challenge_1" then some ⟨true, true, 5⟩
      else if c = "boolean_challenge_2" then some ⟨true, false, 5⟩
      else if c = "boolean_challenge_3" then some ⟨false, false, 5⟩
      else none
    else none
  user_wallet := fun _ => sampleUserWallet

/-- Attestation fixture matching the happy-path scenario. -/
def sampleAttestation : Attestation :=
  ⟨5, sampleOracle, sampleUserWallet, "boolean_challenge_2", "1"⟩

/-- Listed track fixture owned by user 7. -/
def sampleTrack : Track :=
  ⟨10, some 7, true, false, false, none, 5, none, 100⟩

/-- Unlisted track fixture owned by user 8. -/
def sampleUnlistedTrack : Track :=
  ⟨12, some 8, true, true, false, none, 5, none, 100⟩

/-- Database fixture: one listed and one unlisted track, and the user the
handle lookup finds. -/
def sampleTracksDb : Database :=
  ⟨[sampleTrack, sampleUnlistedTrack], [], [], [⟨7, "alice"⟩]⟩

/-- Args fixture with no optional keys present. -/
def sampleArgsNoKeys : Args :=
  ⟨none, none, none, none, none, none, none, 10, 0⟩

/-- Args fixture with both the handle and the id keys present. -/
def sampleArgsHandle : Args :=
  ⟨none, none, some [10, 12], some "Alice", none, none, none, 10, 0⟩

/-! Theorems: helper lemmas, the claim theorems, and their witnesses. -/

theorem encNat_eq (n : Nat) :
    encNat n = if n < 10 then [48 + n] else encNat (n / 10) ++ [48 + n % 10] := by
  rw [encNat]

theorem encNat_ne_nil (n : Nat) : encNat n ≠ [] := by
  rw [encNat_eq]
  split
  · simp
  · simp

theorem mem_encNat_bound (n : Nat) : ∀ b ∈ encNat n, 48 ≤ b ∧ b < 58 := by
  induction n using Nat.strong_induction_on with
  | _ n ih =>
    intro b hb
    rw [encNat_eq] at hb
    split at hb
    · simp only [List.mem_singleton] at hb
      omega
    · rcases List.mem_append.mp hb with h | h
      · exact ih (n / 10) (Nat.div_lt_self (by omega) (by omega)) b h
      · simp only [List.mem_singleton] at h
        have := Nat.mod_lt n (show 0 < 10 by omega)
        omega

theorem encNat_inj (a b : Nat) (h : encNat a = encNat b) : a = b := by
  induction a using Nat.strong_induction_on generalizing b with
  | _ a ih =>
    by_cases ha : a < 10 <;> by_cases hb : b < 10
    · rw [encNat_eq a, if_pos ha, encNat_eq b, if_pos hb] at h
      simp only [List.cons.injEq] at h
      omega
    · rw [encNat_eq a, if_pos ha, encNat_eq b, if_neg hb] at h
      have hlen := congrArg List.length h
      simp only [List.length_singleton, List.length_append] at hlen
      exact absurd (List.length_eq_zero.mp (by omega)) (encNat_ne_nil (b / 10))
    · rw [encNat_eq a, if_neg ha, encNat_eq b, if_pos hb] at h
      have hlen := congrArg List.length h
      simp only [List.length_singleton, List.length_append] at hlen
      exact absurd (List.length_eq_zero.mp (by omega)) (encNat_ne_nil (a / 10))
    · rw [encNat_eq a, if_neg ha, encNat_eq b, if_neg hb] at h
      have hrev := congrArg List.reverse h
      simp only [List.reverse_append, List.reverse_singleton, List.cons_append,
        List.nil_append, List.cons.injEq] at hrev
      obtain ⟨hmod, hrest⟩ := hrev
      have hdiv : encNat (a / 10) = encNat (b / 10) :=
        List.reverse_injective hrest
      have hda : a / 10 = b / 10 :=
        ih (a / 10) (Nat.div_lt_self (by omega) (by omega)) _ hdiv
      omega

theorem beBytes_length (w n : Nat) : (beBytes w n).length = w := by
  induction w generalizing n with
  | zero => rfl
  | succ w ih => simp [beBytes, ih]

theorem beBytes_lt (w n : Nat) : ∀ b ∈ beBytes w n, b < 256 := by
  induction w generalizing n with
  | zero => simp [beBytes]
  | succ w ih =>
    intro b hb
    rcases List.mem_append.mp hb with h | h
    · exact ih (n / 256) b h
    · simp only [List.mem_singleton] at h
      subst h
      exact Nat.mod_lt _ (by omega)

theorem fromBe_append_singleton (l : List Nat) (b : Nat) :
    fromBe (l ++ [b]) = fromBe l * 256 + b := by
  simp [fromBe, List.foldl_append]

theorem fromBe_beBytes (w n : Nat) (h : n < 256 ^ w) : fromBe (beBytes w n) = n := by
  induction w generalizing n with
  | zero =>
    simp only [pow_zero, Nat.lt_one_iff] at h
    simp [beBytes, fromBe, h]
  | succ w ih =>
    have hdiv : n / 256 < 256 ^ w := by
      rw [Nat.div_lt_iff_lt_mul (by omega)]
      calc n < 256 ^ (w + 1) := h
        _ = 256 ^ w * 256 := pow_succ 256 w
    rw [beBytes, fromBe_append_singleton, ih _ hdiv]
    omega

theorem hexCharVal_hexChar (d : Nat) (h : d < 16) : hexCharVal (hexChar d) = d := by
  interval_cases d <;> rfl

theorem isHexChar_hexChar (d : Nat) (h : d < 16) : isHexChar (hexChar d) = true := by
  interval_cases d <;> rfl

theorem hexOfBytes_nil : hexOfBytes [] = [] := rfl

theorem hexOfBytes_cons (b : Nat) (l : List Nat) :
    hexOfBytes (b :: l) = hexChar (b / 16) :: hexChar (b % 16) :: hexOfBytes l := rfl

theorem hexOfBytes_length (l : List Nat) : (hexOfBytes l).length = 2 * l.length := by
  induction l with
  | nil => rfl
  | cons b bs ih => simp [hexOfBytes_cons, ih]; omega

theorem mem_hexOfBytes (l : List Nat) (hl : ∀ b ∈ l, b < 256) :
    ∀ c ∈ hexOfBytes l, isHexChar c = true := by
  induction l with
  | nil => simp [hexOfBytes_nil]
  | cons b bs ih =>
    intro c hc
    have hb : b < 256 := hl b (List.mem_cons_self b bs)
    rw [hexOfBytes_cons] at hc
    simp only [List.mem_cons] at hc
    rcases hc with hc | hc | hc
    · subst hc
      exact isHexChar_hexChar _ (by omega)
    · subst hc
      exact isHexChar_hexChar _ (Nat.mod_lt _ (by omega))
    · exact ih (fun x hx => hl x (List.mem_cons_of_mem b hx)) c hc

theorem bytesOfHex_hexOfBytes (l : List Nat) (hl : ∀ b ∈ l, b < 256) :
    bytesOfHex (hexOfBytes l) = l := by
  induction l with
  | nil => rfl
  | cons b bs ih =>
    have hb : b < 256 := hl b (List.mem_cons_self b bs)
    have hdiv : b / 16 < 16 := by omega
    have hmod : b % 16 < 16 := Nat.mod_lt _ (by omega)
    rw [hexOfBytes_cons]
    show (hexCharVal (hexChar (b / 16)) * 16 + hexCharVal (hexChar (b % 16)))
        :: bytesOfHex (hexOfBytes bs) = b :: bs
    rw [hexCharVal_hexChar _ hdiv, hexCharVal_hexChar _ hmod,
      ih (fun x hx => hl x (List.mem_cons_of_mem b hx))]
    congr 1
    omega

theorem sep_not_mem_encNat (n : Nat) : SEP ∉ encNat n := by
  intro h
  have := mem_encNat_bound n SEP h
  simp only [SEP] at this
  omega

theorem sep_split_unique {xs ys xsr ysr : List Nat}
    (hx : SEP ∉ xs) (hy : SEP ∉ ys)
    (h : xs ++ SEP :: xsr = ys ++ SEP :: ysr) : xs = ys ∧ xsr = ysr := by
  induction xs generalizing ys with
  | nil =>
    cases ys with
    | nil => simpa using h
    | cons b bs =>
      simp only [List.nil_append, List.cons_append, List.cons.injEq] at h
      exfalso
      apply hy
      rw [h.1]
      exact List.mem_cons_self b bs
  | cons a as ih =>
    cases ys with
    | nil =>
      simp only [List.nil_append, List.cons_append, List.cons.injEq] at h
      exfalso
      apply hx
      rw [← h.1]
      exact List.mem_cons_self a as
    | cons b bs =>
      simp only [List.cons_append, List.cons.injEq] at h
      obtain ⟨hab, hrest⟩ := h
      have hx2 : SEP ∉ as := fun hm => hx (List.mem_cons_of_mem a hm)
      have hy2 : SEP ∉ bs := fun hm => hy (List.mem_cons_of_mem b hm)
      obtain ⟨h1, h2⟩ := ih hx2 hy2 hrest
      exact ⟨by rw [hab, h1], h2⟩

theorem asciiBytes_inj {s t : String} (h : asciiBytes s = asciiBytes t) : s = t := by
  have hinj : Function.Injective Char.toNat := by
    intro c d hcd
    have := congrArg Char.ofNat hcd
    simpa [Char.ofNat_toNat] using this
  have hdata : s.data = t.data := List.map_injective_iff.mpr hinj h
  exact congrArg String.mk hdata

theorem splitAtSep_append {xs rest : List Nat} (hx : SEP ∉ xs) :
    splitAtSep (xs ++ SEP :: rest) = (xs, rest) := by
  induction xs with
  | nil => simp [splitAtSep]
  | cons a as ih =>
    have ha : a ≠ SEP := fun h => hx (h ▸ List.mem_cons_self a as)
    have hx2 : SEP ∉ as := fun hm => hx (List.mem_cons_of_mem a hm)
    simp [splitAtSep, ha, ih hx2]

theorem decodeNat_append_singleton (l : List Nat) (d : Nat) :
    decodeNat (l ++ [d]) = decodeNat l * 10 + (d - 48) := by
  simp [decodeNat, List.foldl_append]

theorem decodeNat_encNat (n : Nat) : decodeNat (encNat n) = n := by
  induction n using Nat.strong_induction_on with
  | _ n ih =>
    by_cases hn : n < 10
    · rw [encNat_eq, if_pos hn]
      simp only [decodeNat, List.foldl_cons, List.foldl_nil]
      omega
    · rw [encNat_eq, if_neg hn, decodeNat_append_singleton,
        ih (n / 10) (Nat.div_lt_self (by omega) (by omega))]
      omega

theorem fieldBytes_split {s t : String} {r r2 : List Nat}
    (h : fieldBytes s ++ r = fieldBytes t ++ r2) : s = t ∧ r = r2 := by
  have h2 : encNat s.data.length ++ SEP :: (asciiBytes s ++ r) =
      encNat t.data.length ++ SEP :: (asciiBytes t ++ r2) := by
    simpa [fieldBytes, List.append_assoc] using h
  obtain ⟨hl, hrest⟩ := sep_split_unique (sep_not_mem_encNat _) (sep_not_mem_encNat _) h2
  have hlen : (asciiBytes s).length = (asciiBytes t).length := by
    have hd := encNat_inj _ _ hl
    simp [asciiBytes, hd]
  obtain ⟨hab, hr⟩ := List.append_inj hrest hlen
  exact ⟨asciiBytes_inj hab, hr⟩

theorem readField_fieldBytes (s : String) (r : List Nat) :
    readField (fieldBytes s ++ r) = (asciiBytes s, r) := by
  have h2 : fieldBytes s ++ r = encNat s.data.length ++ SEP :: (asciiBytes s ++ r) := by
    simp [fieldBytes, List.append_assoc]
  have hl : (asciiBytes s).length = s.data.length := by
    simp [asciiBytes]
  have ht := List.take_left (asciiBytes s) r
  rw [hl] at ht
  have hd := List.drop_left (asciiBytes s) r
  rw [hl] at hd
  rw [readField, h2, splitAtSep_append (sep_not_mem_encNat _)]
  simp only [decodeNat_encNat, ht, hd]

theorem keccak256_length (msg : List Nat) : (keccak256 msg).length = 32 := by
  simp [keccak256]

theorem foldl_digest_lt (l : List Nat) (acc : Nat) (h : acc < 256) :
    l.foldl (fun a b => (a * 31 + b) % 256) acc < 256 := by
  induction l generalizing acc with
  | nil => exact h
  | cons x xs ih => exact ih _ (Nat.mod_lt _ (by omega))

theorem keccak256_lt (msg : List Nat) : ∀ b ∈ keccak256 msg, b < 256 := by
  intro b hb
  simp only [keccak256, List.mem_map, List.mem_range] at hb
  obtain ⟨i, hi, hib⟩ := hb
  rw [← hib]
  exact foldl_digest_lt msg i (by omega)

theorem fromHexString_toHexString (l : List Nat) (hl : ∀ b ∈ l, b < 256) :
    fromHexString (toHexString l) = l := by
  show bytesOfHex ((('0' :: 'x' :: hexOfBytes l : List Char) : List Char).drop 2) = l
  simp only [List.drop_succ_cons, List.drop_zero]
  exact bytesOfHex_hexOfBytes l hl

theorem signBytes_lt (k : DelegateKeyMaterial) (digest : List Nat)
    (hd : ∀ b ∈ digest, b < 256) : ∀ b ∈ signBytes k digest, b < 256 := by
  intro b hb
  simp only [signBytes, List.append_assoc, List.mem_append, List.mem_singleton] at hb
  rcases hb with h | h | h
  · exact beBytes_lt 32 _ b h
  · exact hd b h
  · omega

theorem ecRecover_signBytes (k : DelegateKeyMaterial) (digest : List Nat)
    (hlen : digest.length = 32) (hpk : k.private_key < 2 ^ 256) :
    ecRecover digest (signBytes k digest) = some (ownerWallet k) := by
  have h32 : (beBytes 32 k.private_key).length = 32 := beBytes_length 32 _
  have htake : (signBytes k digest).take 32 = beBytes 32 k.private_key := by
    have h := List.take_left (beBytes 32 k.private_key) (digest ++ [27])
    rw [h32] at h
    rw [signBytes, List.append_assoc]
    exact h
  have hdrop : (signBytes k digest).drop 32 = digest ++ [27] := by
    have h := List.drop_left (beBytes 32 k.private_key) (digest ++ [27])
    rw [h32] at h
    rw [signBytes, List.append_assoc]
    exact h
  have hmid : ((signBytes k digest).drop 32).take 32 = digest := by
    have h := List.take_left digest [27]
    rw [hlen] at h
    rw [hdrop]
    exact h
  have hslen : (signBytes k digest).length = 65 := by
    simp [signBytes, h32, hlen]
  have hpow : k.private_key < 256 ^ 32 := by
    have : (256 : Nat) ^ 32 = 2 ^ 256 := by norm_num
    omega
  rw [ecRecover, if_pos ⟨hslen, hmid⟩, htake, fromBe_beBytes 32 _ hpow]
  rfl

theorem mem_insertBy {α : Type} (le : α → α → Bool) (a x : α) (l : List α) :
    x ∈ insertBy le a l ↔ x = a ∨ x ∈ l := by
  induction l with
  | nil => simp [insertBy]
  | cons b bs ih =>
    simp only [insertBy]
    split
    · simp [List.mem_cons]
    · simp only [List.mem_cons, ih]
      tauto

theorem mem_insertionSortBy {α : Type} (le : α → α → Bool) (x : α) (l : List α) :
    x ∈ insertionSortBy le l ↔ x ∈ l := by
  induction l with
  | nil => simp [insertionSortBy]
  | cons a as ih =>
    simp only [insertionSortBy, mem_insertBy, ih, List.mem_cons]

theorem signBytes_length (k : DelegateKeyMaterial) (digest : List Nat)
    (hd : digest.length = 32) : (signBytes k digest).length = 65 := by
  simp [signBytes, beBytes_length, hd]

theorem validate_congr (db1 db2 : ChallengeStore) (reg1 reg2 : OracleRegistry)
    (user_id : Nat) (challenge_id oracle_address specifier : String)
    (hdb : db1.lookup user_id challenge_id specifier = db2.lookup user_id challenge_id specifier)
    (hreg : reg1.oracle_addresses.contains oracle_address =
      reg2.oracle_addresses.contains oracle_address) :
    validate db1 reg1 user_id challenge_id oracle_address specifier =
      validate db2 reg2 user_id challenge_id oracle_address specifier := by
  unfold validate
  rw [hdb]
  simp only [hreg]

theorem mem_of_slugStage {db : Database} {args : Args} {q : List Track} {t : Track}
    (ht : t ∈ slugStage db args q) : t ∈ q := by
  unfold slugStage at ht
  split at ht
  · exact ht
  · exact (List.mem_filter.mp ht).1

theorem mem_of_unlistedStage {args : Args} {q : List Track} {t : Track}
    (ht : t ∈ unlistedStage args q) : t ∈ q := by
  unfold unlistedStage at ht
  split at ht
  · exact (List.mem_filter.mp ht).1
  · exact ht

theorem mem_of_idStage {args : Args} {q : List Track} {t : Track}
    (ht : t ∈ idStage args q) : t ∈ q := by
  unfold idStage at ht
  split at ht
  · exact ht
  · exact (List.mem_filter.mp ht).1

theorem mem_of_userStage {args : Args} {q : List Track} {t : Track}
    (ht : t ∈ userStage args q) : t ∈ q := by
  unfold userStage at ht
  split at ht
  · exact ht
  · exact (List.mem_filter.mp ht).1

theorem mem_of_deletedStage {args : Args} {q : List Track} {t : Track}
    (ht : t ∈ deletedStage args q) : t ∈ q := by
  unfold deletedStage at ht
  split at ht
  · exact ht
  · split at ht
    · exact (List.mem_filter.mp ht).1
    · exact ht

theorem mem_of_blockStage {args : Args} {q : List Track} {t : Track}
    (ht : t ∈ blockStage args q) : t ∈ q := by
  unfold blockStage at ht
  split at ht
  · exact ht
  · exact (List.mem_filter.mp ht).1

theorem mem_of_sortStage {db : Database} {args : Args} {q : List Track} {t : Track}
    (ht : t ∈ sortStage db args q) : t ∈ q := by
  unfold sortStage at ht
  split at ht
  · exact ht
  · split at ht
    · exact (mem_insertionSortBy _ _ _).mp ht
    · split at ht
      · exact (List.mem_filter.mp ((mem_insertionSortBy _ _ _).mp ht)).1
      · exact (mem_insertionSortBy _ _ _).mp ((by exact ht : t ∈ parse_sort_param_model q))

theorem mem_of_paginateStage {args : Args} {q : List Track} {t : Track}
    (ht : t ∈ paginateStage args q) : t ∈ q := by
  unfold paginateStage at ht
  exact List.drop_subset _ _ (List.take_subset _ _ ht)

theorem mem_get_tracks_to_userStage {db : Database} {args : Args} {t : Track}
    (ht : t ∈ _get_tracks db args) :
    t ∈ userStage args (idStage args (unlistedStage args (slugStage db args (baseQuery db)))) := by
  unfold _get_tracks at ht
  exact mem_of_deletedStage (mem_of_blockStage (mem_of_sortStage (mem_of_paginateStage ht)))

theorem mem_get_tracks_to_unlistedStage {db : Database} {args : Args} {t : Track}
    (ht : t ∈ _get_tracks db args) :
    t ∈ unlistedStage args (slugStage db args (baseQuery db)) :=
  mem_of_idStage (mem_of_userStage (mem_get_tracks_to_userStage ht))

/-- C1: for every (user_id, challenge_id, specifier) whose UserChallenge
exists, is complete and is not disbursed, and every oracle address present
in the registry, get_attestation returns the delegate owner wallet address
paired with a signature such that recovering the signer from the keccak
digest of the built attestation bytes together with that signature yields
that same address. -/
theorem get_attestation_issues_recoverable_signature
    (db : ChallengeStore) (reg : OracleRegistry) (k : DelegateKeyMaterial)
    (user_id : Nat) (challenge_id oracle_address specifier : String)
    (uc : UserChallenge)
    (hpk : k.private_key < 2 ^ 256)
    (hl : db.lookup user_id challenge_id specifier = some uc)
    (hc : uc.is_complete = true)
    (hd : uc.disbursed = false)
    (ho : reg.oracle_addresses.contains oracle_address = true) :
    get_attestation db reg k user_id challenge_id oracle_address specifier =
      .ok (ownerWallet k,
        toHexString (signBytes k (keccak256 (Attestation.get_attestation_bytes
          ⟨uc.amount, oracle_address, db.user_wallet user_id, challenge_id, specifier⟩)))) ∧
    recoverSigner
      (keccak256 (Attestation.get_attestation_bytes
        ⟨uc.amount, oracle_address, db.user_wallet user_id, challenge_id, specifier⟩))
      (toHexString (signBytes k (keccak256 (Attestation.get_attestation_bytes
        ⟨uc.amount, oracle_address, db.user_wallet user_id, challenge_id, specifier⟩)))) =
      some (ownerWallet k) := by
  have ho2 : oracle_address ∈ reg.oracle_addresses := by
    simpa using ho
  have hv : validate db reg user_id challenge_id oracle_address specifier = .ok uc.amount := by
    simp [validate, hl, hc, hd, ho2]
  constructor
  · simp [get_attestation, get_attestation_traced, hv]
  · rw [recoverSigner, fromHexString_toHexString _ (signBytes_lt _ _ (keccak256_lt _))]
    exact ecRecover_signBytes k _ (keccak256_length _) hpk

/-- C2: the validator runs LOOKUP, COMPLETE, NOT_DISBURSED, ORACLE strictly
in that order; the first failing check short-circuits with its kind — a
missing record gives NOT_FOUND whatever else holds, an incomplete record
gives INCOMPLETE, a disbursed record gives ALREADY_DISBURSED even when the
oracle is also unregistered, an unregistered oracle gives INVALID_ORACLE —
and a single kind is reported. -/
theorem validate_check_order (db : ChallengeStore) (reg : OracleRegistry)
    (user_id : Nat) (challenge_id oracle_address specifier : String) :
    (db.lookup user_id challenge_id specifier = none →
      validate db reg user_id challenge_id oracle_address specifier = .error .NOT_FOUND) ∧
    (∀ uc, db.lookup user_id challenge_id specifier = some uc →
      uc.is_complete = false →
      validate db reg user_id challenge_id oracle_address specifier = .error .INCOMPLETE) ∧
    (∀ uc, db.lookup user_id challenge_id specifier = some uc →
      uc.is_complete = true → uc.disbursed = true →
      validate db reg user_id challenge_id oracle_address specifier = .error .ALREADY_DISBURSED) ∧
    (∀ uc, db.lookup user_id challenge_id specifier = some uc →
      uc.is_complete = true → uc.disbursed = false →
      reg.oracle_addresses.contains oracle_address = false →
      validate db reg user_id challenge_id oracle_address specifier = .error .INVALID_ORACLE) ∧
    (∀ k1 k2, validate db reg user_id challenge_id oracle_address specifier = .error k1 →
      validate db reg user_id challenge_id oracle_address specifier = .error k2 → k1 = k2) := by
  refine ⟨?_, ?_, ?_, ?_, ?_⟩
  · intro h
    simp [validate, h]
  · intro uc h hc
    simp [validate, h, hc]
  · intro uc h hc hd
    simp [validate, h, hc, hd]
  · intro uc h hc hd ho
    have ho2 : oracle_address ∉ reg.oracle_addresses := by
      simpa using ho
    simp [validate, h, hc, hd, ho2]
  · intro k1 k2 h1 h2
    rw [h1] at h2
    injection h2

/-- C3: the canonical byte encoding is a total, injective function of the
five-tuple: any two attestations with the same encoding are equal, with no
restriction on the field content, so any single-field change changes the
output byte sequence. -/
theorem get_attestation_bytes_injective (a b : Attestation)
    (h : a.get_attestation_bytes = b.get_attestation_bytes) : a = b := by
  unfold Attestation.get_attestation_bytes at h
  obtain ⟨h1, h⟩ := sep_split_unique (sep_not_mem_encNat _) (sep_not_mem_encNat _) h
  obtain ⟨h2, h⟩ := fieldBytes_split h
  obtain ⟨h3, h⟩ := fieldBytes_split h
  obtain ⟨h4, h5⟩ := fieldBytes_split h
  have h5b : fieldBytes a.challenge_specifier ++ [] =
      fieldBytes b.challenge_specifier ++ [] := by
    rw [List.append_nil, List.append_nil, h5]
  have h6 := (fieldBytes_split h5b).1
  obtain ⟨am, oa, ua, ci, cs⟩ := a
  obtain ⟨bm, bo, bu, bi, bs⟩ := b
  simp only [Attestation.mk.injEq]
  exact ⟨encNat_inj _ _ h1, h2, h3, h4, h6⟩

/-- C4: for every five-tuple of fields, the canonical message bytes encode
the fields in the fixed order amount, oracle_address, user_address,
challenge_id, challenge_specifier, as terminated and length-prefixed ASCII
encodings whose digit terminator never borders field content: parsing the
concatenation recovers each encoded field unambiguously, with no
restriction on the field content. -/
theorem get_attestation_bytes_field_order (a : Attestation) :
    parseAttestationBytes a.get_attestation_bytes =
      (encNat a.amount, asciiBytes a.oracle_address, asciiBytes a.user_address,
        asciiBytes a.challenge_id, asciiBytes a.challenge_specifier) := by
  have h0 : splitAtSep a.get_attestation_bytes =
      (encNat a.amount,
        fieldBytes a.oracle_address ++
          (fieldBytes a.user_address ++
            (fieldBytes a.challenge_id ++ fieldBytes a.challenge_specifier))) := by
    unfold Attestation.get_attestation_bytes
    exact splitAtSep_append (sep_not_mem_encNat _)
  have h1 := readField_fieldBytes a.oracle_address
    (fieldBytes a.user_address ++ (fieldBytes a.challenge_id ++ fieldBytes a.challenge_specifier))
  have h2 := readField_fieldBytes a.user_address
    (fieldBytes a.challenge_id ++ fieldBytes a.challenge_specifier)
  have h3 := readField_fieldBytes a.challenge_id (fieldBytes a.challenge_specifier)
  have h4 : readField (fieldBytes a.challenge_specifier) =
      (asciiBytes a.challenge_specifier, []) := by
    have h5 := readField_fieldBytes a.challenge_specifier []
    rw [List.append_nil] at h5
    exact h5
  simp [parseAttestationBytes, h0, h1, h2, h3, h4]

/-- C5: on every input that fails the validity precondition, the issuance
operation returns the typed error wrapping the kind of the first failing
check, with an empty effect trace: no signing is performed and nothing is
written. -/
theorem get_attestation_invalid_no_signing (db : ChallengeStore) (reg : OracleRegistry)
    (k : DelegateKeyMaterial) (user_id : Nat)
    (challenge_id oracle_address specifier : String)
    (h : ∀ uc, db.lookup user_id challenge_id specifier = some uc →
      uc.is_complete = false ∨ uc.disbursed = true ∨
        reg.oracle_addresses.contains oracle_address = false) :
    validate db reg user_id challenge_id oracle_address specifier =
      .error (firstFailingKind db reg user_id challenge_id oracle_address specifier) ∧
    get_attestation_traced db reg k user_id challenge_id oracle_address specifier =
      (.error ⟨firstFailingKind db reg user_id challenge_id oracle_address specifier,
        errorMessage (firstFailingKind db reg user_id challenge_id oracle_address specifier)⟩,
        []) := by
  cases hl : db.lookup user_id challenge_id specifier with
  | none =>
    constructor
    · simp [validate, firstFailingKind, hl]
    · simp [get_attestation_traced, validate, firstFailingKind, hl]
  | some uc =>
    cases hc : uc.is_complete with
    | false =>
      constructor
      · simp [validate, firstFailingKind, hl, hc]
      · simp [get_attestation_traced, validate, firstFailingKind, hl, hc]
    | true =>
      cases hd : uc.disbursed with
      | true =>
        constructor
        · simp [validate, firstFailingKind, hl, hc, hd]
        · simp [get_attestation_traced, validate, firstFailingKind, hl, hc, hd]
      | false =>
        cases ho : reg.oracle_addresses.contains oracle_address with
        | false =>
          have ho2 : oracle_address ∉ reg.oracle_addresses := by
            simpa using ho
          constructor
          · simp [validate, firstFailingKind, hl, hc, hd, ho2]
          · simp [get_attestation_traced, validate, firstFailingKind, hl, hc, hd, ho2]
        | true =>
          exfalso
          rcases h uc hl with hx | hx | hx
          · rw [hc] at hx
            exact Bool.noConfusion hx
          · rw [hd] at hx
            exact Bool.noConfusion hx
          · rw [ho] at hx
            exact Bool.noConfusion hx

/-- C6: on every successful issuance the returned pair consists of the
derived delegate wallet address, a 0x-prefixed string of 40 hex characters,
and a signature string of 0x followed by exactly 130 hex characters,
encoding the 65 raw bytes of the two 32-byte scalars plus the recovery
byte. -/
theorem get_attestation_signature_format (db : ChallengeStore) (reg : OracleRegistry)
    (k : DelegateKeyMaterial) (user_id : Nat)
    (challenge_id oracle_address specifier : String) (amount : Nat)
    (hv : validate db reg user_id challenge_id oracle_address specifier = .ok amount) :
    get_attestation db reg k user_id challenge_id oracle_address specifier =
      .ok (ownerWallet k,
        toHexString (signBytes k (keccak256 (Attestation.get_attestation_bytes
          ⟨amount, oracle_address, db.user_wallet user_id, challenge_id, specifier⟩)))) ∧
    (ownerWallet k).length = 42 ∧
    (ownerWallet k).data.take 2 = ['0', 'x'] ∧
    ((ownerWallet k).data.drop 2).all isHexChar = true ∧
    (toHexString (signBytes k (keccak256 (Attestation.get_attestation_bytes
      ⟨amount, oracle_address, db.user_wallet user_id, challenge_id, specifier⟩)))).length = 132 ∧
    (toHexString (signBytes k (keccak256 (Attestation.get_attestation_bytes
      ⟨amount, oracle_address, db.user_wallet user_id, challenge_id, specifier⟩)))).data.take 2 =
      ['0', 'x'] ∧
    ((toHexString (signBytes k (keccak256 (Attestation.get_attestation_bytes
      ⟨amount, oracle_address, db.user_wallet user_id, challenge_id, specifier⟩)))).data.drop 2).all
      isHexChar = true ∧
    (signBytes k (keccak256 (Attestation.get_attestation_bytes
      ⟨amount, oracle_address, db.user_wallet user_id, challenge_id, specifier⟩))).length = 65 := by
  have hsb : (signBytes k (keccak256 (Attestation.get_attestation_bytes
      ⟨amount, oracle_address, db.user_wallet user_id, challenge_id, specifier⟩))).length = 65 :=
    signBytes_length k _ (keccak256_length _)
  refine ⟨?_, ?_, rfl, ?_, ?_, rfl, ?_, hsb⟩
  · simp [get_attestation, get_attestation_traced, hv]
  · show ('0' :: 'x' :: hexOfBytes (beBytes 20 k.private_key)).length = 42
    simp [hexOfBytes_length, beBytes_length]
  · show ((('0' :: 'x' :: hexOfBytes (beBytes 20 k.private_key) : List Char)).drop 2).all
      isHexChar = true
    simp only [List.drop_succ_cons, List.drop_zero]
    exact List.all_eq_true.mpr (fun c hc => mem_hexOfBytes _ (beBytes_lt 20 _) c hc)
  · show ('0' :: 'x' :: hexOfBytes (signBytes k (keccak256 (Attestation.get_attestation_bytes
      ⟨amount, oracle_address, db.user_wallet user_id, challenge_id, specifier⟩)))).length = 132
    simp [hexOfBytes_length, hsb]
  · show ((('0' :: 'x' :: hexOfBytes (signBytes k (keccak256 (Attestation.get_attestation_bytes
      ⟨amount, oracle_address, db.user_wallet user_id, challenge_id, specifier⟩))) :
        List Char)).drop 2).all isHexChar = true
    simp only [List.drop_succ_cons, List.drop_zero]
    exact List.all_eq_true.mpr
      (fun c hc => mem_hexOfBytes _ (signBytes_lt _ _ (keccak256_lt _)) c hc)

/-- C7: validation is a deterministic pure function of the snapshot it
observes: two calls whose store and registry snapshots agree on the queried
record and on the oracle membership yield identical outcomes, so repeated
calls against an unchanged snapshot are idempotent. -/
theorem validate_deterministic_snapshot (db1 db2 : ChallengeStore)
    (reg1 reg2 : OracleRegistry) (user_id : Nat)
    (challenge_id oracle_address specifier : String)
    (hdb : db1.lookup user_id challenge_id specifier = db2.lookup user_id challenge_id specifier)
    (hreg : reg1.oracle_addresses.contains oracle_address =
      reg2.oracle_addresses.contains oracle_address) :
    validate db1 reg1 user_id challenge_id oracle_address specifier =
      validate db2 reg2 user_id challenge_id oracle_address specifier :=
  validate_congr db1 db2 reg1 reg2 user_id challenge_id oracle_address specifier hdb hreg

/-- C8: no issuance call ever emits a write effect — the disbursed flag and
every other field of the stores stay untouched — and two calls whose
snapshots agree on the observed record, wallet and oracle membership return
identical results and traces, so repeated calls sign identical message
bytes. -/
theorem get_attestation_no_writes_frame (db1 db2 : ChallengeStore)
    (reg1 reg2 : OracleRegistry) (k : DelegateKeyMaterial) (user_id : Nat)
    (challenge_id oracle_address specifier : String)
    (hdb : db1.lookup user_id challenge_id specifier = db2.lookup user_id challenge_id specifier)
    (hw : db1.user_wallet user_id = db2.user_wallet user_id)
    (hreg : reg1.oracle_addresses.contains oracle_address =
      reg2.oracle_addresses.contains oracle_address) :
    Effect.wrote ∉ (get_attestation_traced db1 reg1 k user_id challenge_id
      oracle_address specifier).2 ∧
    get_attestation_traced db1 reg1 k user_id challenge_id oracle_address specifier =
      get_attestation_traced db2 reg2 k user_id challenge_id oracle_address specifier := by
  constructor
  · cases hv : validate db1 reg1 user_id challenge_id oracle_address specifier with
    | error kind => simp [get_attestation_traced, hv]
    | ok amount => simp [get_attestation_traced, hv]
  · unfold get_attestation_traced
    rw [validate_congr db1 db2 reg1 reg2 user_id challenge_id oracle_address specifier hdb hreg]
    simp only [hw]

/-- C9: whenever the slug key or the user_id key is absent from the args
mapping, every track returned by `_get_tracks` has is_unlisted false;
unlisted tracks can only come back when both keys are present. -/
theorem get_tracks_unlisted_requires_slug_and_user (db : Database) (args : Args)
    (h : args.slug = none ∨ args.user_id = none) :
    ∀ t ∈ _get_tracks db args, t.is_unlisted = false := by
  intro t ht
  have h2 := mem_get_tracks_to_unlistedStage ht
  unfold unlistedStage at h2
  have hcond : (args.slug.isNone || args.user_id.isNone) = true := by
    rcases h with h | h <;> simp [h]
  rw [if_pos hcond] at h2
  have h3 := (List.mem_filter.mp h2).2
  simpa using h3

/-- C10: for every args mapping containing the handle key, `get_tracks`
stores the looked-up user id, possibly empty, under the user_id key before
the cache decision, so the shared unpopulated-tracks cache path is never
taken, even when the id key is present, and the query filters on the
possibly-empty owner id. -/
theorem get_tracks_handle_sets_user_id (db : Database) (args : Args) (h : String)
    (hh : args.handle = some h) :
    (argsAfterHandle db args).user_id = some (lookupUserIdByHandle db h) ∧
    can_use_shared_cache (argsAfterHandle db args) = false ∧
    get_tracks_and_ids db args =
      (_get_tracks db (argsAfterHandle db args),
        (_get_tracks db (argsAfterHandle db args)).map Track.track_id) ∧
    ∀ t ∈ get_tracks db args, t.owner_id = lookupUserIdByHandle db h := by
  have hu : (argsAfterHandle db args).user_id = some (lookupUserIdByHandle db h) := by
    simp [argsAfterHandle, hh]
  have hc : can_use_shared_cache (argsAfterHandle db args) = false := by
    simp [can_use_shared_cache, hu]
  have hg : get_tracks_and_ids db args =
      (_get_tracks db (argsAfterHandle db args),
        (_get_tracks db (argsAfterHandle db args)).map Track.track_id) := by
    simp [get_tracks_and_ids, hc]
  refine ⟨hu, hc, hg, ?_⟩
  intro t ht
  have ht2 : t ∈ _get_tracks db (argsAfterHandle db args) := by
    rw [get_tracks, hg] at ht
    exact ht
  have ht3 := mem_get_tracks_to_userStage ht2
  unfold userStage at ht3
  rw [hu] at ht3
  have h4 := (List.mem_filter.mp ht3).2
  exact eq_of_beq h4

theorem get_attestation_issues_recoverable_signature_witness :
    get_attestation sampleStore sampleReg sampleKey 1 "boolean_challenge_2" sampleOracle "1" =
      .ok (ownerWallet sampleKey,
        toHexString (signBytes sampleKey (keccak256 (Attestation.get_attestation_bytes
          ⟨5, sampleOracle, sampleStore.user_wallet 1, "boolean_challenge_2", "1"⟩)))) ∧
    recoverSigner
      (keccak256 (Attestation.get_attestation_bytes
        ⟨5, sampleOracle, sampleStore.user_wallet 1, "boolean_challenge_2", "1"⟩))
      (toHexString (signBytes sampleKey (keccak256 (Attestation.get_attestation_bytes
        ⟨5, sampleOracle, sampleStore.user_wallet 1, "boolean_challenge_2", "1"⟩)))) =
      some (ownerWallet sampleKey) :=
  get_attestation_issues_recoverable_signature sampleStore sampleReg sampleKey 1
    "boolean_challenge_2" sampleOracle "1" ⟨true, false, 5⟩ (by norm_num [sampleKey])
    (by decide) rfl rfl (by decide)

theorem validate_check_order_witness :
    validate sampleStore sampleReg 1 "boolean_challenge_2" sampleOracle "xyz" =
      .error .NOT_FOUND ∧
    validate sampleStore sampleReg 1 "boolean_challenge_3" sampleOracle "1" =
      .error .INCOMPLETE ∧
    validate sampleStore sampleReg 1 "boolean_challenge_1" sampleOracle "1" =
      .error .ALREADY_DISBURSED ∧
    validate sampleStore sampleReg 1 "boolean_challenge_2" "wrong_oracle_address" "1" =
      .error .INVALID_ORACLE :=
  ⟨(validate_check_order sampleStore sampleReg 1 "boolean_challenge_2" sampleOracle "xyz").1
      (by decide),
    (validate_check_order sampleStore sampleReg 1 "boolean_challenge_3" sampleOracle "1").2.1
      ⟨false, false, 5⟩ (by decide) rfl,
    (validate_check_order sampleStore sampleReg 1 "boolean_challenge_1" sampleOracle "1").2.2.1
      ⟨true, true, 5⟩ (by decide) rfl rfl,
    (validate_check_order sampleStore sampleReg 1 "boolean_challenge_2"
      "wrong_oracle_address" "1").2.2.2.1 ⟨true, false, 5⟩ (by decide) rfl rfl (by decide)⟩

theorem get_attestation_bytes_injective_witness : sampleAttestation = sampleAttestation :=
  get_attestation_bytes_injective sampleAttestation sampleAttestation rfl

theorem get_attestation_bytes_field_order_witness :
    parseAttestationBytes sampleAttestation.get_attestation_bytes =
      (encNat sampleAttestation.amount, asciiBytes sampleAttestation.oracle_address,
        asciiBytes sampleAttestation.user_address, asciiBytes sampleAttestation.challenge_id,
        asciiBytes sampleAttestation.challenge_specifier) :=
  get_attestation_bytes_field_order sampleAttestation

theorem get_attestation_invalid_no_signing_witness :
    validate sampleStore sampleReg 1 "boolean_challenge_2" "wrong_oracle_address" "1" =
      .error (firstFailingKind sampleStore sampleReg 1 "boolean_challenge_2"
        "wrong_oracle_address" "1") ∧
    get_attestation_traced sampleStore sampleReg sampleKey 1 "boolean_challenge_2"
        "wrong_oracle_address" "1" =
      (.error ⟨firstFailingKind sampleStore sampleReg 1 "boolean_challenge_2"
          "wrong_oracle_address" "1",
        errorMessage (firstFailingKind sampleStore sampleReg 1 "boolean_challenge_2"
          "wrong_oracle_address" "1")⟩, []) :=
  get_attestation_invalid_no_signing sampleStore sampleReg sampleKey 1 "boolean_challenge_2"
    "wrong_oracle_address" "1" (fun _ _ => Or.inr (Or.inr (by decide)))

theorem get_attestation_signature_format_witness :
    get_attestation sampleStore sampleReg sampleKey 1 "boolean_challenge_2" sampleOracle "1" =
      .ok (ownerWallet sampleKey,
        toHexString (signBytes sampleKey (keccak256 (Attestation.get_attestation_bytes
          ⟨5, sampleOracle, sampleStore.user_wallet 1, "boolean_challenge_2", "1"⟩)))) ∧
    (ownerWallet sampleKey).length = 42 ∧
    (ownerWallet sampleKey).data.take 2 = ['0', 'x'] ∧
    ((ownerWallet sampleKey).data.drop 2).all isHexChar = true ∧
    (toHexString (signBytes sampleKey (keccak256 (Attestation.get_attestation_bytes
      ⟨5, sampleOracle, sampleStore.user_wallet 1, "boolean_challenge_2", "1"⟩)))).length = 132 ∧
    (toHexString (signBytes sampleKey (keccak256 (Attestation.get_attestation_bytes
      ⟨5, sampleOracle, sampleStore.user_wallet 1, "boolean_challenge_2", "1"⟩)))).data.take 2 =
      ['0', 'x'] ∧
    ((toHexString (signBytes sampleKey (keccak256 (Attestation.get_attestation_bytes
      ⟨5, sampleOracle, sampleStore.user_wallet 1, "boolean_challenge_2",
        "1"⟩)))).data.drop 2).all isHexChar = true ∧
    (signBytes sampleKey (keccak256 (Attestation.get_attestation_bytes
      ⟨5, sampleOracle, sampleStore.user_wallet 1, "boolean_challenge_2", "1"⟩))).length = 65 :=
  get_attestation_signature_format sampleStore sampleReg sampleKey 1 "boolean_challenge_2"
    sampleOracle "1" 5 rfl

theorem validate_deterministic_snapshot_witness :
    validate sampleStore sampleReg 1 "boolean_challenge_2" sampleOracle "1" =
      validate sampleStore sampleReg 1 "boolean_challenge_2" sampleOracle "1" :=
  validate_deterministic_snapshot sampleStore sampleStore sampleReg sampleReg 1
    "boolean_challenge_2" sampleOracle "1" rfl rfl

theorem get_attestation_no_writes_frame_witness :
    Effect.wrote ∉ (get_attestation_traced sampleStore sampleReg sampleKey 1
      "boolean_challenge_2" sampleOracle "1").2 ∧
    get_attestation_traced sampleStore sampleReg sampleKey 1 "boolean_challenge_2"
        sampleOracle "1" =
      get_attestation_traced sampleStore sampleReg sampleKey 1 "boolean_challenge_2"
        sampleOracle "1" :=
  get_attestation_no_writes_frame sampleStore sampleStore sampleReg sampleReg sampleKey 1
    "boolean_challenge_2" sampleOracle "1" rfl rfl rfl

theorem get_tracks_unlisted_requires_slug_and_user_witness :
    sampleTrack.is_unlisted = false :=
  get_tracks_unlisted_requires_slug_and_user sampleTracksDb sampleArgsNoKeys
    (Or.inl rfl) sampleTrack (by decide)

theorem get_tracks_handle_sets_user_id_witness :
    (argsAfterHandle sampleTracksDb sampleArgsHandle).user_id =
      some (lookupUserIdByHandle sampleTracksDb "Alice") ∧
    can_use_shared_cache (argsAfterHandle sampleTracksDb sampleArgsHandle) = false ∧
    sampleTrack.owner_id = lookupUserIdByHandle sampleTracksDb "Alice" :=
  ⟨(get_tracks_handle_sets_user_id sampleTracksDb sampleArgsHandle "Alice" rfl).1,
    (get_tracks_handle_sets_user_id sampleTracksDb sampleArgsHandle "Alice" rfl).2.1,
    (get_tracks_handle_sets_user_id sampleTracksDb sampleArgsHandle "Alice" rfl).2.2.2
      sampleTrack (by decide)⟩

end Audius

